import Mathlib

/-!
Verification of the module-federation container and sharing logic of the
repository (lib/container/ContainerEntryModule, lib/container/ContainerPlugin,
lib/container/ContainerReferencePlugin, lib/sharing/ConsumeSharedPlugin).

JavaScript strings are modelled as Lean `String`s, indexed through their
character list `String.data`: every string manipulated by this code is ASCII,
so UTF-16 code units (`charCodeAt`, `length`, `slice`) correspond one-to-one
to characters.
-/

namespace WebpackFederation

/-- JS `s.startsWith(p)`. -/
def jsStartsWith (s p : String) : Bool :=
  p.data.isPrefixOf s.data

/-- JS `s.slice(n)` (drop the first `n` code units). -/
def jsSliceFrom (s : String) (n : Nat) : String :=
  String.mk (s.data.drop n)

/-- JS `s.length` (code units; characters for the ASCII strings used here). -/
def jsLen (s : String) : Nat :=
  s.data.length

/-- JS `s.charCodeAt(n)`, as the character at index `n` when in range. -/
def jsCharAt (s : String) (n : Nat) : Option Char :=
  s.data.get? n

/-- JS `s.includes(c)` for a single-character needle. -/
def jsContains (s : String) (c : Char) : Bool :=
  s.data.contains c

/-- First-match lookup in an association list; models reading a property of a
JS object used as a string-keyed map (keys are unique in all uses below). -/
def lookupKey {β : Type} : List (String × β) → String → Option β
  | [], _ => none
  | (k, v) :: rest, key => if k = key then some v else lookupKey rest key

/-- Replace-or-append update of an association list; models the JS property
assignment `obj[key] = v`. -/
def setKey {β : Type} : List (String × β) → String → β → List (String × β)
  | [], key, v => [(key, v)]
  | (k, w) :: rest, key, v =>
    if k = key then (key, v) :: rest else (k, w) :: setKey rest key v

theorem lookupKey_setKey_self {β : Type} (l : List (String × β)) (k : String) (v : β) :
    lookupKey (setKey l k v) k = some v := by
  induction l with
  | nil => simp [setKey, lookupKey]
  | cons hd tl ih =>
    obtain ⟨k', w⟩ := hd
    by_cases h : k' = k
    · simp [setKey, h, lookupKey]
    · simp [setKey, h, lookupKey, ih]

/-! ## Emitted container runtime (`ContainerEntryModule.codeGeneration`)

The container entry module emits a `moduleMap`, a `get` function and an `init`
function.  We embed the behaviour of the emitted JavaScript.  Share-scope
objects are identified by an abstract identity (`Nat`): the emitted `init`
compares scope objects by reference (`oldScope !== shareScope`). -/

/-- State visible to the emitted `init`: whether the global share-scope map
(`__webpack_require__.S`) exists, and its bindings from scope name to the
identity of the bound scope object. -/
structure ShareRuntimeState where
  hasShareScopeMap : Bool
  shareScopeMap : List (String × Nat)
deriving Repr, DecidableEq

/-- The emitted `init(shareScope, initScope)` body (part_000 lines 242-249):
return immediately when the share-scope map is absent; otherwise read the slot
for the scope name of the container, throw when it holds a different object,
otherwise (re)bind the slot to `shareScope`.  The trailing call to the external
sharing-initialization runtime (`__webpack_require__.I`) is outside the sources
of this repository and is not modelled; the emitted body itself throws only
at the mismatch check. -/
def containerInit (scopeName : String) (shareScope : Nat) (st : ShareRuntimeState) :
    Except String ShareRuntimeState :=
  if !st.hasShareScopeMap then Except.ok st
  else
    match lookupKey st.shareScopeMap scopeName with
    | some oldScope =>
      if oldScope ≠ shareScope then
        Except.error "Container initialization failed as it has already been initialized with a different share scope"
      else
        Except.ok { st with shareScopeMap := setKey st.shareScopeMap scopeName shareScope }
    | none =>
      Except.ok { st with shareScopeMap := setKey st.shareScopeMap scopeName shareScope }

/-- State visible to the emitted `get`: the `moduleMap` (expose name to
zero-argument loader) and the `currentRemoteGetScope` marker
(`__webpack_require__.R`). -/
structure GetState (α γ : Type) where
  moduleMap : List (String × (Unit → α))
  currentRemoteGetScope : Option γ

/-- The emitted `get(module, getScope)` body (part_000 lines 224-241): set the
current-remote-get-scope marker, look the name up in `moduleMap` with
`hasOwnProperty`, invoke the loader when present or build a rejected promise
with the exact missing-module message otherwise, reset the marker, and return
the computed value. -/
def containerGet {α γ : Type} (st : GetState α γ) (modName : String) (getScope : γ) :
    Except String α × GetState α γ :=
  let st1 : GetState α γ := { st with currentRemoteGetScope := some getScope }
  let result : Except String α :=
    match lookupKey st1.moduleMap modName with
    | some loader => Except.ok (loader ())
    | none => Except.error ("Module \"" ++ modName ++ "\" does not exist in container.")
  let st2 : GetState α γ := { st1 with currentRemoteGetScope := none }
  (result, st2)

/-- C1: the emitted container `init(shareScope, initScope)`: an empty registry
slot for the scope name of the container is bound to `shareScope`; a slot holding a
different object makes `init` throw exactly the message
"Container initialization failed as it has already been initialized with a
different share scope"; a slot holding the same object throws no error. -/
theorem containerInit_spec (st : ShareRuntimeState) (scopeName : String) (shareScope : Nat)
    (hmap : st.hasShareScopeMap = true) :
    (lookupKey st.shareScopeMap scopeName = none →
      ∃ st', containerInit scopeName shareScope st = Except.ok st' ∧
        lookupKey st'.shareScopeMap scopeName = some shareScope) ∧
    (∀ oldScope, lookupKey st.shareScopeMap scopeName = some oldScope → oldScope ≠ shareScope →
      containerInit scopeName shareScope st =
        Except.error "Container initialization failed as it has already been initialized with a different share scope") ∧
    (lookupKey st.shareScopeMap scopeName = some shareScope →
      ∃ st', containerInit scopeName shareScope st = Except.ok st' ∧
        lookupKey st'.shareScopeMap scopeName = some shareScope) := by
  refine ⟨?_, ?_, ?_⟩
  · intro hnone
    refine ⟨{ st with shareScopeMap := setKey st.shareScopeMap scopeName shareScope }, ?_, ?_⟩
    · simp [containerInit, hmap, hnone]
    · exact lookupKey_setKey_self _ _ _
  · intro oldScope hsome hne
    simp [containerInit, hmap, hsome, hne]
  · intro hsame
    refine ⟨{ st with shareScopeMap := setKey st.shareScopeMap scopeName shareScope }, ?_, ?_⟩
    · simp [containerInit, hmap, hsame]
    · exact lookupKey_setKey_self _ _ _

/-- Witness for C1 at a concrete state: initializing a fresh registry binds the
scope slot. -/
theorem containerInit_spec_witness :
    ∃ st', containerInit "default" 7 ⟨true, []⟩ = Except.ok st' ∧
      lookupKey st'.shareScopeMap "default" = some 7 :=
  (containerInit_spec ⟨true, []⟩ "default" 7 rfl).1 rfl

/-- C2: the emitted container `get(name, getScope)`: a name absent from
`moduleMap` yields a rejection with exactly the message
`Module "<name>" does not exist in container.` and leaves `moduleMap`
unchanged; a present name yields the result of invoking its loader (also
leaving `moduleMap` unchanged). -/
theorem containerGet_spec {α γ : Type} (st : GetState α γ) (n : String) (gs : γ) :
    (lookupKey st.moduleMap n = none →
      (containerGet st n gs).1 =
        Except.error ("Module \"" ++ n ++ "\" does not exist in container.") ∧
      (containerGet st n gs).2.moduleMap = st.moduleMap) ∧
    (∀ loader, lookupKey st.moduleMap n = some loader →
      (containerGet st n gs).1 = Except.ok (loader ()) ∧
      (containerGet st n gs).2.moduleMap = st.moduleMap) := by
  constructor
  · intro hnone
    constructor
    · simp [containerGet, hnone]
    · rfl
  · intro loader hsome
    constructor
    · simp [containerGet, hsome]
    · rfl

/-- Witness for C2 at a concrete module map: a missing name rejects with the
exact message and the map is untouched. -/
theorem containerGet_spec_witness :
    (containerGet (⟨[("a", fun _ => (5 : Nat))], none⟩ : GetState Nat Nat) "missing" 0).1 =
      Except.error "Module \"missing\" does not exist in container." ∧
    (containerGet (⟨[("a", fun _ => (5 : Nat))], none⟩ : GetState Nat Nat) "missing" 0).2.moduleMap =
      [("a", fun _ => (5 : Nat))] :=
  (containerGet_spec ⟨[("a", fun _ => (5 : Nat))], none⟩ "missing" 0).1 rfl

/-! ## ContainerReferencePlugin (part_000 lines 433-586)

The plugin registers one external reference per non-`internal ` remote target
(`remoteExternals` loop, lines 500-511) and, in the factorize hook
(lines 537-564), matches import requests against remote keys and constructs a
`RemoteModule` whose request list maps each target either to its stripped
in-graph request (for `internal ` targets) or to an external reference name. -/

/-- One parsed entry of the `remotes` option: its external target list and its
share scope. -/
structure RemoteConfig where
  external : List String
  shareScope : String
deriving Repr, DecidableEq

/-- The external-reference name for remote `key` at counter `i`:
`webpack/container/reference/<key>` with a `/fallback-<i>` suffix when `i` is
not zero. -/
def refName (key : String) (i : Nat) : String :=
  "webpack/container/reference/" ++ key ++ (if i = 0 then "" else "/fallback-" ++ toString i)

/-- Whether a target string carries the reserved `internal ` marker. -/
def isInternalTarget (s : String) : Bool :=
  jsStartsWith s "internal "

/-- The `remoteExternals` registration loop body for one remote (lines
502-511): skip `internal ` targets, register every other target under
`refName key i`, incrementing `i` only for registered targets. -/
def regGo (key : String) : Nat → List String → List (String × String)
  | _, [] => []
  | i, e :: rest =>
    if isInternalTarget e then regGo key i rest
    else (refName key i, e) :: regGo key (i + 1) rest

/-- The request list of a constructed `RemoteModule` (lines 550-556):
`config.external.map((external, i) => ...)` over the full target list, where
`i` is the position in that full list; `internal ` targets are stripped of the
9-character marker, every other target maps to `refName key i`. -/
def remoteRequests (key : String) : Nat → List String → List String
  | _, [] => []
  | i, e :: rest =>
    (if isInternalTarget e then jsSliceFrom e 9 else refName key i) ::
      remoteRequests key (i + 1) rest

/-- The `RemoteModule` constructed by the factorize hook (lines 548-559). -/
structure RemoteModule where
  request : String
  externalRequests : List String
  internalRequest : String
  shareScope : String
deriving Repr, DecidableEq

/-- The per-key loop of the factorize hook (lines 542-561): the first key that
the request starts with, followed by either the end of the request or a `/`,
produces the `RemoteModule`. -/
def remoteFirstMatch (request : String) : List (String × RemoteConfig) → Option RemoteModule
  | [] => none
  | (key, cfg) :: rest =>
    if jsStartsWith request key &&
        (jsLen request == jsLen key || jsCharAt request (jsLen key) == some '/') then
      some { request := request
             externalRequests := remoteRequests key 0 cfg.external
             internalRequest := "." ++ jsSliceFrom request (jsLen key)
             shareScope := cfg.shareScope }
    else remoteFirstMatch request rest

/-- The factorize hook (lines 537-564): requests containing `!` are never
matched; otherwise the configured remotes are tried in order. -/
def matchRemotes (remotes : List (String × RemoteConfig)) (request : String) :
    Option RemoteModule :=
  if jsContains request '!' then none
  else remoteFirstMatch request remotes

theorem regGo_values_not_internal (key : String) :
    ∀ (i : Nat) (l : List String), ∀ p ∈ regGo key i l, isInternalTarget p.2 = false := by
  intro i l
  induction l generalizing i with
  | nil => simp [regGo]
  | cons e rest ih =>
    intro p hp
    cases he : isInternalTarget e with
    | true =>
      rw [regGo, if_pos (by simp [he])] at hp
      exact ih _ p hp
    | false =>
      rw [regGo, if_neg (by simp [he])] at hp
      rcases List.mem_cons.mp hp with h | h
      · rw [h]; exact he
      · exact ih _ p h

theorem remoteRequests_get (key : String) :
    ∀ (l : List String) (j i : Nat) (e : String), l.get? i = some e →
      (remoteRequests key j l).get? i =
        some (if isInternalTarget e then jsSliceFrom e 9 else refName key (j + i)) := by
  intro l
  induction l with
  | nil => intro j i e h; simp at h
  | cons x rest ih =>
    intro j i e h
    cases i with
    | zero =>
      simp only [List.get?] at h
      cases h
      simp [remoteRequests]
    | succ n =>
      have hrest : rest.get? n = some e := by simpa using h
      have := ih (j + 1) n e hrest
      simp only [remoteRequests, List.get?]
      rw [this, Nat.add_assoc, Nat.add_comm 1 n]

/-- C4: a request `r` without `!` is matched against remote key `k` (producing
a `RemoteModule`) exactly when `r` starts with `k` and either `r` has the
length of `k` or the character of `r` at position `length k` is `/`; in
particular `app1-extra` never matches remote key `app1`. -/
theorem remote_request_matching (key : String) (cfg : RemoteConfig) (r : String)
    (hbang : jsContains r '!' = false) :
    ((matchRemotes [(key, cfg)] r).isSome = true ↔
      (key.data.isPrefixOf r.data = true ∧
        (jsLen r = jsLen key ∨ jsCharAt r (jsLen key) = some '/'))) ∧
    matchRemotes [("app1", cfg)] "app1-extra" = none := by
  constructor
  · rw [matchRemotes, if_neg (by simp [hbang])]
    rw [remoteFirstMatch]
    by_cases hc : (jsStartsWith r key &&
        (jsLen r == jsLen key || jsCharAt r (jsLen key) == some '/')) = true
    · rw [if_pos hc]
      simp only [Option.isSome_some, true_iff]
      simp only [Bool.and_eq_true, Bool.or_eq_true, beq_iff_eq] at hc
      exact ⟨hc.1, hc.2⟩
    · rw [if_neg hc, remoteFirstMatch]
      constructor
      · intro h
        simp at h
      · rintro ⟨h1, h2⟩
        exact absurd (by
          simp only [Bool.and_eq_true, Bool.or_eq_true, beq_iff_eq]
          exact ⟨h1, h2⟩) hc
  · have h1 : jsContains "app1-extra" '!' = false := by decide
    have h2 : (jsStartsWith "app1-extra" "app1" &&
        (jsLen "app1-extra" == jsLen "app1" ||
          jsCharAt "app1-extra" (jsLen "app1") == some '/')) = false := by decide
    simp [matchRemotes, h1, remoteFirstMatch, h2]

/-- Witness for C4: the request `app1/routes` matches remote key `app1`. -/
theorem remote_request_matching_witness :
    (matchRemotes [("app1", (⟨["u"], "default"⟩ : RemoteConfig))] "app1/routes").isSome = true :=
  ((remote_request_matching "app1" ⟨["u"], "default"⟩ "app1/routes" (by decide)).1).mpr
    ⟨by decide, Or.inr (by decide)⟩

/-- C7: `internal ` targets are never registered as external references (every
registered value lacks the marker), and the constructed `RemoteModule` request
at position `i` is the target stripped of the 9-character marker when the
target is internal, and the external-reference name
`webpack/container/reference/<key>` (suffixed `/fallback-<i>` for non-first
positions) otherwise. -/
theorem remote_internal_marker (key : String) (exts : List String) :
    (∀ p ∈ regGo key 0 exts, isInternalTarget p.2 = false) ∧
    (∀ i e, exts.get? i = some e →
      (remoteRequests key 0 exts).get? i =
        some (if isInternalTarget e then jsSliceFrom e 9 else refName key i)) := by
  constructor
  · exact regGo_values_not_internal key 0 exts
  · intro i e h
    simpa using remoteRequests_get key exts 0 i e h

/-- Witness for C7: a concrete two-target remote, with an internal first
target stripped of its marker. -/
theorem remote_internal_marker_witness :
    (remoteRequests "app" 0 ["internal ./x", "y"]).get? 0 =
      some (if isInternalTarget "internal ./x" then jsSliceFrom "internal ./x" 9
            else refName "app" 0) :=
  (remote_internal_marker "app" ["internal ./x", "y"]).2 0 "internal ./x" rfl

/-- C10 fails on the code: with target list `["internal ./x", "y"]` for key
`app`, registration numbers the non-internal target `y` as 0 (name
`webpack/container/reference/app`) while construction numbers it by its full
list position 1 (name `webpack/container/reference/app/fallback-1`), a name
that was never registered. -/
theorem remote_numbering_counterexample :
    isInternalTarget "y" = false ∧
    (remoteRequests "app" 0 ["internal ./x", "y"]).get? 1 = some (refName "app" 1) ∧
    refName "app" 1 ∉ (regGo "app" 0 ["internal ./x", "y"]).map Prod.fst := by
  decide

/-- Amended condition for C10: every `internal ` target occurs after all
non-internal targets of the remote. -/
def internalTargetsLast : List String → Bool
  | [] => true
  | e :: rest =>
    if isInternalTarget e then rest.all (fun t => isInternalTarget t)
    else internalTargetsLast rest

theorem regGo_mem_refName (key : String) :
    ∀ (l : List String) (cnt i : Nat) (e : String),
      internalTargetsLast l = true → l.get? i = some e → isInternalTarget e = false →
      refName key (cnt + i) ∈ (regGo key cnt l).map Prod.fst := by
  intro l
  induction l with
  | nil => intro cnt i e _ h _; simp at h
  | cons x rest ih =>
    intro cnt i e hlast hget hni
    cases hx : isInternalTarget x with
    | true =>
      have hall : rest.all (fun t => isInternalTarget t) = true := by
        rw [internalTargetsLast, if_pos (by simp [hx])] at hlast
        exact hlast
      cases i with
      | zero =>
        simp only [List.get?] at hget
        cases hget
        rw [hx] at hni
        exact absurd hni (by simp)
      | succ n =>
        have hmem : e ∈ rest := List.get?_mem (by simpa using hget)
        have := List.all_eq_true.mp hall e hmem
        rw [this] at hni
        exact absurd hni (by simp)
    | false =>
      have hrest : internalTargetsLast rest = true := by
        rw [internalTargetsLast, if_neg (by simp [hx])] at hlast
        exact hlast
      cases i with
      | zero =>
        simp only [List.get?] at hget
        cases hget
        rw [regGo, if_neg (by simp [hx])]
        simp
      | succ n =>
        rw [regGo, if_neg (by simp [hx])]
        have := ih (cnt + 1) n e hrest (by simpa using hget) hni
        have harith : cnt + 1 + n = cnt + (n + 1) := by omega
        rw [harith] at this
        simp only [List.map_cons, List.mem_cons]
        exact Or.inr this

/-- C10 amended: whenever every `internal ` target of a remote occurs after
all of its non-internal targets, each external-reference name used in the
constructed `RemoteModule` request list for a non-internal target (the name
`refName key i` for full-list position `i`) was registered in the remote
externals map for that key. -/
theorem remote_numbering_amended (key : String) (exts : List String)
    (h : internalTargetsLast exts = true) :
    ∀ i e, exts.get? i = some e → isInternalTarget e = false →
      refName key i ∈ (regGo key 0 exts).map Prod.fst := by
  intro i e hget hni
  simpa using regGo_mem_refName key exts 0 i e h hget hni

/-- Witness for the amended C10: non-internal target first, internal last. -/
theorem remote_numbering_amended_witness :
    refName "app" 0 ∈ (regGo "app" 0 ["y", "internal ./x"]).map Prod.fst :=
  remote_numbering_amended "app" ["y", "internal ./x"] (by decide) 0 "y" rfl (by decide)

/-! ## ConsumeSharedPlugin (lib/sharing/ConsumeSharedPlugin.js)

The constructor normalizes the `consumes` option through two mappers (a
short-hand one for string items, lines 57-86, and a long-hand one for object
items, lines 87-102).  `createConsumeSharedModule` (lines 147-262) resolves
the fallback request and determines the required version, then builds a
`ConsumeSharedModule`.  The factorize hook (lines 265-295) matches requests
against the unresolved and prefixed consume configurations. -/

/-- A parsed required-version value: absent (`undefined`), the JS literal
`false` (version checking disabled), or a parsed range. -/
inductive ReqVer where
  | undef
  | disabled
  | range (raw : String)
deriving Repr, DecidableEq

/-- Modelled from the spec: `parseRange` of §4.1 (lib/util/semver.js is not
under src/); only its application points matter to the claims here, so the
parsed range keeps the raw text. -/
def parseRange (s : String) : ReqVer :=
  ReqVer.range s

/-- One normalized consume entry (the `ConsumeOptions` record the mappers
build).  The `import` field of the source is named `importReq` because that
word is reserved in Lean. -/
structure ConsumeOptions where
  importReq : Option String
  shareScope : String
  shareKey : String
  requiredVersion : ReqVer
  packageName : Option String
  strictVersion : Bool
  singleton : Bool
  eager : Bool
deriving Repr, DecidableEq

/-- The short-hand mapper (lines 57-86).  `isReqVer` stands for
`isRequiredVersion` of lib/sharing/utils.js, which is not under src/ and is
therefore a parameter; `globalShareScope` is the plugin-level `shareScope`
option (`none` models `undefined`; the schema forbids empty strings, so
JS truthiness coincides with presence). -/
def consumeShorthand (isReqVer : String → Bool) (globalShareScope : Option String)
    (key item : String) : ConsumeOptions :=
  if item = key || !isReqVer item then
    { importReq := some key
      shareScope := globalShareScope.getD "default"
      shareKey := key
      requiredVersion := ReqVer.undef
      packageName := none
      strictVersion := false
      singleton := false
      eager := false }
  else
    { importReq := some key
      shareScope := globalShareScope.getD "default"
      shareKey := key
      requiredVersion := parseRange item
      strictVersion := true
      packageName := none
      singleton := false
      eager := false }

/-- The `import` property of a long-hand consume item: absent, the literal
`false`, or a request string. -/
inductive JsImportValue where
  | undef
  | disabled
  | request (s : String)
deriving Repr, DecidableEq

/-- The raw `requiredVersion` property of a long-hand item before
`parseRange` is applied. -/
inductive RawReqVer where
  | undef
  | disabled
  | str (s : String)
deriving Repr, DecidableEq

/-- A long-hand consume item as received by the options mapper. -/
structure ConsumesConfigItem where
  importVal : JsImportValue
  shareScopeVal : Option String
  shareKeyVal : Option String
  requiredVersionVal : RawReqVer
  strictVersionVal : Option Bool
  packageNameVal : Option String
  singletonVal : Option Bool
  eagerVal : Option Bool
deriving Repr, DecidableEq

/-- The long-hand mapper (lines 87-102).  `item.import === false ? undefined
: item.import || key` makes an empty-string request fall back to the key
(JS truthiness); `strictVersion` defaults to
`item.import !== false && !item.singleton`; `singleton` and `eager` are
coerced with `!!`. -/
def consumeLonghand (globalShareScope : Option String) (key : String)
    (item : ConsumesConfigItem) : ConsumeOptions :=
  { importReq :=
      match item.importVal with
      | JsImportValue.disabled => none
      | JsImportValue.undef => some key
      | JsImportValue.request s => some (if s = "" then key else s)
    shareScope := (item.shareScopeVal.orElse (fun _ => globalShareScope)).getD "default"
    shareKey := item.shareKeyVal.getD key
    requiredVersion :=
      match item.requiredVersionVal with
      | RawReqVer.str s => parseRange s
      | RawReqVer.disabled => ReqVer.disabled
      | RawReqVer.undef => ReqVer.undef
    strictVersion :=
      match item.strictVersionVal with
      | some b => b
      | none => (item.importVal != JsImportValue.disabled) && !(item.singletonVal.getD false)
    packageName := item.packageNameVal
    singleton := item.singletonVal.getD false
    eager := item.eagerVal.getD false }

/-- C3 fails on the code: a short-hand entry whose item equals its key (for
example `{ react: "react" }`) parses with `singleton` unset and sharing not
disabled, yet `strictVersion` is `false`, not `true` as the claim
predicts. -/
theorem strictVersion_default_counterexample :
    (consumeShorthand (fun _ => false) none "react" "react").singleton = false ∧
    (consumeShorthand (fun _ => false) none "react" "react").importReq ≠ none ∧
    (consumeShorthand (fun _ => false) none "react" "react").strictVersion = false := by
  decide

/-- C3 amended: a long-hand entry without an explicit boolean `strictVersion`
parses with `strictVersion` true exactly when sharing is not import-disabled
and `singleton` is not set; a short-hand entry parses with `strictVersion`
true exactly when its item differs from its key and is a required-version
string (in every other case, including the plain request short-hand,
`strictVersion` is false). -/
theorem strictVersion_default_amended (isReqVer : String → Bool) (gss : Option String)
    (key item : String) (li : ConsumesConfigItem) (h : li.strictVersionVal = none) :
    ((consumeLonghand gss key li).strictVersion = true ↔
      ((consumeLonghand gss key li).importReq ≠ none ∧
        (consumeLonghand gss key li).singleton = false)) ∧
    ((consumeShorthand isReqVer gss key item).strictVersion = true ↔
      (item ≠ key ∧ isReqVer item = true)) := by
  constructor
  · rcases li with ⟨iv, ssv, skv, rvv, svv, pnv, sgv, egv⟩
    simp only at h
    subst h
    cases iv <;> rcases sgv with _ | (_ | _) <;>
      simp [consumeLonghand]
  · by_cases h1 : item = key
    · simp [consumeShorthand, h1]
    · by_cases h2 : isReqVer item = true
      · simp [consumeShorthand, h1, h2]
      · simp [consumeShorthand, h1, Bool.eq_false_iff.mpr h2, h2]

/-- Witness for the amended C3 at a concrete long-hand item and a concrete
version-string short-hand item. -/
theorem strictVersion_default_amended_witness :
    (((consumeLonghand none "react"
        ⟨JsImportValue.undef, none, none, RawReqVer.undef, none, none, none, none⟩).strictVersion = true ↔
      ((consumeLonghand none "react"
        ⟨JsImportValue.undef, none, none, RawReqVer.undef, none, none, none, none⟩).importReq ≠ none ∧
        (consumeLonghand none "react"
        ⟨JsImportValue.undef, none, none, RawReqVer.undef, none, none, none, none⟩).singleton = false)) ∧
    ((consumeShorthand (fun s => s = "^1.0.0") none "react" "^1.0.0").strictVersion = true ↔
      ("^1.0.0" ≠ "react" ∧ (fun s : String => decide (s = "^1.0.0")) "^1.0.0" = true))) :=
  strictVersion_default_amended (fun s => s = "^1.0.0") none "react" "^1.0.0"
    ⟨JsImportValue.undef, none, none, RawReqVer.undef, none, none, none, none⟩ rfl

/-! ### Version inference (`createConsumeSharedModule`, lines 147-262) -/

/-- Whether a character is a path separator (the regex class `[\\/]`). -/
def isPathSep (c : Char) : Bool :=
  c = '/' || c = '\\'

/-- The absolute-request test of the version-inference promise (line 203):
the regular expression `^(\/|[A-Za-z]:|\\\\)`. -/
def absoluteRequestTest (request : String) : Bool :=
  match request.data with
  | '/' :: _ => true
  | '\\' :: '\\' :: _ => true
  | c :: ':' :: _ =>
    (decide ('A' ≤ c) && decide (c ≤ 'Z')) || (decide ('a' ≤ c) && decide (c ≤ 'z'))
  | _ => false

/-- The direct-fallback test (line 157): the regular expression
`^(\.\.?(\/|$)|\/|[A-Za-z]:|\\\\)`, which also covers relative requests. -/
def directFallbackTest (s : String) : Bool :=
  match s.data with
  | '.' :: '.' :: '/' :: _ => true
  | ['.', '.'] => true
  | '.' :: '/' :: _ => true
  | ['.'] => true
  | '/' :: _ => true
  | '\\' :: '\\' :: _ => true
  | c :: ':' :: _ =>
    (decide ('A' ≤ c) && decide (c ≤ 'Z')) || (decide ('a' ≤ c) && decide (c ≤ 'z'))
  | _ => false

/-- The plain alternative `[^\\/]+` of the package-name extraction regex:
the leading run of non-separator characters, when non-empty. -/
def extractSimplePackage (l : List Char) : Option (List Char) :=
  match l.takeWhile (fun c => !isPathSep c) with
  | [] => none
  | seg => some seg

/-- The package-name extraction regex of line 208,
`^((?:@[^\\/]+[\\/])?[^\\/]+)`, as the text of `match[0]`: an optional scope
segment (`@`, one or more non-separators, a separator) followed by one or
more non-separators; when the optional group matches but no non-separator
follows it, the regex backtracks to the plain alternative. -/
def extractPackageName (request : String) : Option String :=
  match request.data with
  | '@' :: rest =>
    (match rest.takeWhile (fun c => !isPathSep c), rest.dropWhile (fun c => !isPathSep c) with
     | _ :: _, sep :: rest3 =>
       (match rest3.takeWhile (fun c => !isPathSep c) with
        | [] => (extractSimplePackage ('@' :: rest)).map String.mk
        | seg2 =>
          some (String.mk ('@' :: rest.takeWhile (fun c => !isPathSep c) ++ sep :: seg2)))
     | _, _ => (extractSimplePackage ('@' :: rest)).map String.mk)
  | l => (extractSimplePackage l).map String.mk

/-- How the version-inference promise (lines 198-216) proceeds before any
description-file access: use the configured required version, resolve
`undefined` without any lookup, warn that no package name is extractable, or
look a package name up in the description file. -/
inductive InferenceStep where
  | useConfigured (v : ReqVer)
  | noLookup
  | unextractable
  | lookupPkg (packageName : String)
deriving Repr, DecidableEq

/-- Lines 198-216 of the version-inference promise. -/
def versionInferenceStep (cfg : ConsumeOptions) (request : String) : InferenceStep :=
  match cfg.requiredVersion with
  | ReqVer.undef =>
    match cfg.packageName with
    | some p => InferenceStep.lookupPkg p
    | none =>
      if absoluteRequestTest request then InferenceStep.noLookup
      else
        match extractPackageName request with
        | none => InferenceStep.unextractable
        | some p => InferenceStep.lookupPkg p
  | v => InferenceStep.useConfigured v

/-- The dependency lists of a description file (package.json). -/
structure PackageData where
  dependencies : List (String × String)
  devDependencies : List (String × String)
  peerDependencies : List (String × String)
deriving Repr, DecidableEq

/-- Modelled from the spec: `getRequiredVersionFromDescriptionFile`
(lib/sharing/utils.js, not under src/) reads the declared version range for
the package name from the dependency lists, direct, dev and peer, in that
preference order (spec §4.3). -/
def getRequiredVersionFromDescriptionFile (data : PackageData) (pkg : String) : Option String :=
  match lookupKey data.dependencies pkg with
  | some v => some v
  | none =>
    match lookupKey data.devDependencies pkg with
    | some v => some v
    | none => lookupKey data.peerDependencies pkg

/-- Outcome of the external `getDescriptionFile` search (lib/sharing/utils.js,
not under src/) as seen by the callback of lines 222-248: an I/O error, a
result without data, or a found description file with its path. -/
inductive DescOutcome where
  | ioErr (e : String)
  | res (data : Option PackageData) (path : String)
deriving Repr, DecidableEq

/-- The warning text pushed by `requiredVersionWarning` (lines 148-154). -/
def requiredVersionWarningMsg (details : String) : String :=
  "No required version specified and unable to automatically determine one. " ++ details

/-- The `getDescriptionFile` callback (lines 222-248): each failure pushes
one warning and resolves `undefined`; a found version string is parsed. -/
def versionLookup (pkg context : String) (o : DescOutcome) : List String × ReqVer :=
  match o with
  | DescOutcome.ioErr e =>
    ([requiredVersionWarningMsg ("Unable to read description file: " ++ e)], ReqVer.undef)
  | DescOutcome.res none _ =>
    ([requiredVersionWarningMsg ("Unable to find description file in " ++ context ++ ".")],
      ReqVer.undef)
  | DescOutcome.res (some data) descriptionPath =>
    match getRequiredVersionFromDescriptionFile data pkg with
    | none =>
      ([requiredVersionWarningMsg ("Unable to find required version for \"" ++ pkg ++
          "\" in description file (" ++ descriptionPath ++
          "). It need to be in dependencies, devDependencies or peerDependencies.")],
        ReqVer.undef)
    | some v => ([], parseRange v)

/-- The whole version-determination promise (lines 198-249): the warnings it
pushes to `compilation.warnings` and the value it resolves. -/
def determineRequiredVersion (cfg : ConsumeOptions) (request context : String)
    (o : DescOutcome) : List String × ReqVer :=
  match versionInferenceStep cfg request with
  | InferenceStep.useConfigured v => ([], v)
  | InferenceStep.noLookup => ([], ReqVer.undef)
  | InferenceStep.unextractable =>
    ([requiredVersionWarningMsg "Unable to extract the package name from request."], ReqVer.undef)
  | InferenceStep.lookupPkg p => versionLookup p context o

/-- Outcome of the external fallback resolution (`resolver.resolve`, lines
170-195) for a configured fallback request. -/
inductive ResolveOutcome where
  | err (e : String)
  | ok (path : String)
deriving Repr, DecidableEq

/-- The module built by `createConsumeSharedModule` (lines 250-261). -/
structure ConsumeSharedModule where
  contextDir : String
  options : ConsumeOptions
  resolvedFallback : Option String
deriving Repr, DecidableEq

/-- `createConsumeSharedModule` (lines 147-262): returns the errors pushed to
`compilation.errors`, the warnings pushed to `compilation.warnings`, and the
constructed module.  The fallback-resolution promise contributes only errors
(a `ModuleNotFoundError` on resolver failure); the version promise
contributes only warnings. -/
def createConsumeSharedModule (compilerContext context request : String)
    (cfg : ConsumeOptions) (ro : ResolveOutcome) (o : DescOutcome) :
    List String × List String × ConsumeSharedModule :=
  let directFallback : Bool :=
    match cfg.importReq with
    | some s => (s != "") && directFallbackTest s
    | none => false
  let resolveResult : Option String × List String :=
    match cfg.importReq with
    | none => (none, [])
    | some s =>
      if s = "" then (none, [])
      else
        match ro with
        | ResolveOutcome.err _ =>
          (none, ["ModuleNotFoundError: resolving fallback for shared module " ++ request])
        | ResolveOutcome.ok p => (some p, [])
  let vres := determineRequiredVersion cfg request context o
  (resolveResult.2, vres.1,
    { contextDir := if directFallback then compilerContext else context
      options :=
        { cfg with
          importReq := if resolveResult.1.isSome then cfg.importReq else none
          requiredVersion := vres.2 }
      resolvedFallback := resolveResult.1 })

/-- C5 fails on the code: for the relative request `./foo` with no configured
required version and no package-name override, the version-inference step
extracts the package name `.` and proceeds to a description-file lookup,
although the comment at line 204 (and the spec) say automatic inference is
skipped for relative or absolute requests; the regular expression at line 203
tests only absolute requests (first conjunct), while absolute requests do
skip the lookup (second conjunct) and the sibling direct-fallback regex in
the same function does recognize `./foo` as a relative path (third
conjunct). -/
theorem relative_request_inference_bug :
    versionInferenceStep
      ⟨some "./foo", "default", "./foo", ReqVer.undef, none, false, false, false⟩ "./foo" =
      InferenceStep.lookupPkg "." ∧
    versionInferenceStep
      ⟨some "/abs/foo", "default", "/abs/foo", ReqVer.undef, none, false, false, false⟩ "/abs/foo" =
      InferenceStep.noLookup ∧
    directFallbackTest "./foo" = true := by
  decide

/-- C6: whenever automatic required-version determination fails at any step
(package name not extractable; description file unreadable or absent; package
not listed in the dependency lists), exactly one warning is pushed, the
version resolves `undefined`, and the `ConsumeSharedModule` is still created
with `requiredVersion` undefined while the determination pushes no error. -/
theorem auto_version_failure_warns (cfg : ConsumeOptions)
    (compilerContext context request p fallbackPath : String) (o : DescOutcome)
    (hstep : versionInferenceStep cfg request = InferenceStep.unextractable ∨
      (versionInferenceStep cfg request = InferenceStep.lookupPkg p ∧
        ((∃ e, o = DescOutcome.ioErr e) ∨ (∃ path, o = DescOutcome.res none path) ∨
          (∃ data path, o = DescOutcome.res (some data) path ∧
            getRequiredVersionFromDescriptionFile data p = none)))) :
    (determineRequiredVersion cfg request context o).1.length = 1 ∧
    (determineRequiredVersion cfg request context o).2 = ReqVer.undef ∧
    (createConsumeSharedModule compilerContext context request cfg
      (ResolveOutcome.ok fallbackPath) o).1 = [] ∧
    (createConsumeSharedModule compilerContext context request cfg
      (ResolveOutcome.ok fallbackPath) o).2.2.options.requiredVersion = ReqVer.undef := by
  have hdet : (determineRequiredVersion cfg request context o).1.length = 1 ∧
      (determineRequiredVersion cfg request context o).2 = ReqVer.undef := by
    rcases hstep with h | ⟨h, hfail⟩
    · simp [determineRequiredVersion, h]
    · rcases hfail with ⟨e, he⟩ | ⟨path, hp⟩ | ⟨data, path, hp, hnone⟩
      · subst he
        simp [determineRequiredVersion, h, versionLookup]
      · subst hp
        simp [determineRequiredVersion, h, versionLookup]
      · subst hp
        simp [determineRequiredVersion, h, versionLookup, hnone]
  refine ⟨hdet.1, hdet.2, ?_, ?_⟩
  · cases himp : cfg.importReq with
    | none => simp [createConsumeSharedModule, himp]
    | some s =>
      by_cases hs : s = ""
      · simp [createConsumeSharedModule, himp, hs]
      · simp [createConsumeSharedModule, himp, hs]
  · cases himp : cfg.importReq with
    | none => simpa [createConsumeSharedModule, himp] using hdet.2
    | some s =>
      by_cases hs : s = ""
      · simpa [createConsumeSharedModule, himp, hs] using hdet.2
      · simpa [createConsumeSharedModule, himp, hs] using hdet.2

/-- Witness for C6: the request `react` against a description file that does
not list `react` in any dependency list yields one warning and a module with
no required version. -/
theorem auto_version_failure_warns_witness :
    (determineRequiredVersion
      ⟨some "react", "default", "react", ReqVer.undef, none, false, false, false⟩
      "react" "/app" (DescOutcome.res (some ⟨[], [], []⟩) "/app/package.json")).1.length = 1 ∧
    (determineRequiredVersion
      ⟨some "react", "default", "react", ReqVer.undef, none, false, false, false⟩
      "react" "/app" (DescOutcome.res (some ⟨[], [], []⟩) "/app/package.json")).2 = ReqVer.undef ∧
    (createConsumeSharedModule "/proj" "/app" "react"
      ⟨some "react", "default", "react", ReqVer.undef, none, false, false, false⟩
      (ResolveOutcome.ok "/app/node_modules/react/index.js")
      (DescOutcome.res (some ⟨[], [], []⟩) "/app/package.json")).1 = [] ∧
    (createConsumeSharedModule "/proj" "/app" "react"
      ⟨some "react", "default", "react", ReqVer.undef, none, false, false, false⟩
      (ResolveOutcome.ok "/app/node_modules/react/index.js")
      (DescOutcome.res (some ⟨[], [], []⟩) "/app/package.json")).2.2.options.requiredVersion =
      ReqVer.undef :=
  auto_version_failure_warns
    ⟨some "react", "default", "react", ReqVer.undef, none, false, false, false⟩
    "/proj" "/app" "react" "react" "/app/node_modules/react/index.js"
    (DescOutcome.res (some ⟨[], [], []⟩) "/app/package.json")
    (Or.inr ⟨by decide, Or.inr (Or.inr ⟨⟨[], [], []⟩, "/app/package.json", rfl, rfl⟩)⟩)

/-! ### Factorize hook of ConsumeSharedPlugin (lines 265-295) -/

/-- The effective options built for a prefix match (lines 285-291): the
remainder of the request is appended to the fallback request (JS truthiness:
an empty configured fallback yields `undefined`) and to the share key. -/
def applyPrefixOptions (opts : ConsumeOptions) (remainder : String) : ConsumeOptions :=
  { opts with
    importReq :=
      match opts.importReq with
      | some s => if s = "" then none else some (s ++ remainder)
      | none => none
    shareKey := opts.shareKey ++ remainder }

/-- The `prefixedConsumes` loop (lines 282-293): the first configured prefix
the request starts with wins. -/
def prefixLoop (request : String) : List (String × ConsumeOptions) → Option ConsumeOptions
  | [] => none
  | (p, opts) :: rest =>
    if jsStartsWith request p then
      some (applyPrefixOptions opts (jsSliceFrom request (jsLen p)))
    else prefixLoop request rest

/-- The factorize hook (lines 265-295): `isSpecialDep` models the early
return for `ConsumeSharedFallbackDependency` / `ProvideForSharedDependency`
dependencies; an exact `unresolvedConsumes` match takes precedence over the
prefix loop; the returned options are the ones handed to
`createConsumeSharedModule`. -/
def consumeFactorize (isSpecialDep : Bool) (unresolved prefixed : List (String × ConsumeOptions))
    (request : String) : Option ConsumeOptions :=
  if isSpecialDep then none
  else
    match lookupKey unresolved request with
    | some m => some m
    | none => prefixLoop request prefixed

theorem prefixLoop_skip (r : String) (l : List (String × ConsumeOptions)) :
    ∀ front : List (String × ConsumeOptions),
      (∀ q ∈ front, jsStartsWith r q.1 = false) →
      prefixLoop r (front ++ l) = prefixLoop r l := by
  intro front
  induction front with
  | nil => intro _; rfl
  | cons q rest ih =>
    intro h
    obtain ⟨p, opts⟩ := q
    rw [List.cons_append, prefixLoop, if_neg (by simp [h (p, opts) (by simp)])]
    exact ih (fun q hq => h q (by simp [hq]))

/-- C8: for a request starting with a configured prefix key (with no exact
unresolved match and no earlier matching prefix), the module is created with
effective fallback request equal to the configured one concatenated with the
request remainder (or absent when no fallback is configured) and effective
share key equal to the configured share key concatenated with the same
remainder. -/
theorem prefix_consume_spec (unresolved front : List (String × ConsumeOptions))
    (p : String) (opts : ConsumeOptions) (rest : List (String × ConsumeOptions)) (r : String)
    (hexact : lookupKey unresolved r = none)
    (hfront : ∀ q ∈ front, jsStartsWith r q.1 = false)
    (hmatch : jsStartsWith r p = true)
    (hne : opts.importReq ≠ some "") :
    ∃ cfg, consumeFactorize false unresolved (front ++ (p, opts) :: rest) r = some cfg ∧
      cfg.importReq = opts.importReq.map (fun s => s ++ jsSliceFrom r (jsLen p)) ∧
      cfg.shareKey = opts.shareKey ++ jsSliceFrom r (jsLen p) := by
  refine ⟨applyPrefixOptions opts (jsSliceFrom r (jsLen p)), ?_, ?_, rfl⟩
  · rw [consumeFactorize, if_neg (by simp), hexact]
    rw [prefixLoop_skip r _ front hfront, prefixLoop, if_pos hmatch]
  · cases himp : opts.importReq with
    | none => simp [applyPrefixOptions, himp]
    | some s =>
      have hs : s ≠ "" := by
        intro h
        exact hne (by rw [himp, h])
      simp [applyPrefixOptions, himp, hs]

/-- Witness for C8: the spec example, request `shared/utils/format` against
prefix `shared/` with share key `shared/`, yields effective share key
`shared/utils/format`. -/
theorem prefix_consume_spec_witness :
    ∃ cfg, consumeFactorize false []
        [("shared/", ⟨some "./shared/", "default", "shared/", ReqVer.undef, none,
          false, false, false⟩)] "shared/utils/format" = some cfg ∧
      cfg.importReq = (some "./shared/").map
        (fun s => s ++ jsSliceFrom "shared/utils/format" (jsLen "shared/")) ∧
      cfg.shareKey = "shared/" ++ jsSliceFrom "shared/utils/format" (jsLen "shared/") :=
  prefix_consume_spec [] [] "shared/"
    ⟨some "./shared/", "default", "shared/", ReqVer.undef, none, false, false, false⟩
    [] "shared/utils/format" rfl (by simp) (by decide) (by decide)

/-! ### Emitted `moduleMap` loaders (`ContainerEntryModule.codeGeneration`,
part_000 lines 170-217)

For each exposed entry, the generated getter either takes the
missing-module error path (when some import target has no module in the
graph, line 184) or awaits the chunk and returns an accessor whose body is
the parenthesized comma expression of the raw modules of all targets
(lines 189-208). -/

/-- A runtime JavaScript value: an export object identified abstractly, or an
array of values (the shape the claim predicts). -/
inductive JsValue where
  | obj (id : Nat)
  | arr (elems : List JsValue)

/-- The code-generation decision for one exposed entry (lines 170-217):
`g` is `moduleGraph.getModule` restricted to the entry, mapping an import
target request to the module (identified abstractly) it resolved to. -/
inductive GetterBody where
  | missingModuleError (requests : String)
  | loadThenAccess (mods : List Nat)
deriving Repr, DecidableEq

/-- Lines 182-209: the missing path joins all requests with `, `; the normal
path emits the accessor over the modules of all targets in declaration
order. -/
def getterFor (g : String → Option Nat) (targets : List String) : GetterBody :=
  let modules := targets.map (fun r => (g r, r))
  if modules.any (fun m => m.1.isNone) then
    GetterBody.missingModuleError (String.intercalate ", " (modules.map (fun m => m.2)))
  else
    GetterBody.loadThenAccess (modules.filterMap (fun m => m.1))

/-- Runtime value of the emitted parenthesized comma expression
`(m1, m2, ..., mk)` (lines 196-206): every operand is evaluated in order and
the value of the last one is the value of the expression. -/
def commaExprValue (vals : List JsValue) : Option JsValue :=
  vals.getLast?

/-- What invoking the emitted accessor yields, given the loaded export object
of each module. -/
def accessorResult (load : Nat → JsValue) (mods : List Nat) : Option JsValue :=
  commaExprValue (mods.map load)

theorem filterMap_fst_map_some (g : String → Option Nat) (targets : List String)
    (h : ∀ t ∈ targets, (g t).isSome) :
    ((targets.map (fun r => (g r, r))).filterMap (fun m => m.1)).map some = targets.map g := by
  induction targets with
  | nil => rfl
  | cons t rest ih =>
    have ht : (g t).isSome := h t (by simp)
    obtain ⟨v, hv⟩ := Option.isSome_iff_exists.mp ht
    simp only [List.map_cons, List.filterMap_cons, hv]
    rw [ih (fun x hx => h x (by simp [hx]))]

/-- C9 fails on the code: for an exposed entry with two resolved import
targets, the emitted accessor yields the export object of the last target
(the comma expression value), not the two-element array of all loaded export
objects the claim predicts. -/
theorem moduleMap_accessor_counterexample :
    getterFor (fun r => if r = "./a" then some 1 else if r = "./b" then some 2 else none)
        ["./a", "./b"] = GetterBody.loadThenAccess [1, 2] ∧
    accessorResult (fun n => JsValue.obj n) [1, 2] = some (JsValue.obj 2) ∧
    some (JsValue.obj 2) ≠ some (JsValue.arr [JsValue.obj 1, JsValue.obj 2]) := by
  refine ⟨by decide, rfl, by simp⟩

/-- C9 amended: when some import target of an exposed entry failed to resolve
at build time, the emitted loader takes the missing-module error path; when
all targets resolved, the loader binds the modules of all import targets in
declaration order and its accessor, once invoked, yields the loaded export
object of the last import target (the value of the emitted comma expression),
after evaluating all of them in order. -/
theorem moduleMap_accessor_amended (g : String → Option Nat) (targets : List String)
    (load : Nat → JsValue) :
    ((∃ t ∈ targets, g t = none) →
      ∃ req, getterFor g targets = GetterBody.missingModuleError req) ∧
    ((∀ t ∈ targets, g t ≠ none) →
      ∃ ms, getterFor g targets = GetterBody.loadThenAccess ms ∧
        ms.map some = targets.map g ∧
        accessorResult load ms = (ms.map load).getLast?) := by
  constructor
  · rintro ⟨t, ht, hnone⟩
    have hany : (targets.map (fun r => ((g r, r) : Option Nat × String))).any
        (fun m => m.1.isNone) = true := by
      rw [List.any_eq_true]
      exact ⟨(g t, t), List.mem_map.mpr ⟨t, ht, rfl⟩, by simp [hnone]⟩
    exact ⟨String.intercalate ", "
        ((targets.map (fun r => ((g r, r) : Option Nat × String))).map (fun m => m.2)),
      by rw [getterFor]; simp only [hany, if_true]⟩
  · intro hall
    have hall' : ∀ t ∈ targets, (g t).isSome := by
      intro t ht
      exact Option.isSome_iff_ne_none.mpr (hall t ht)
    have hany : (targets.map (fun r => ((g r, r) : Option Nat × String))).any
        (fun m => m.1.isNone) = false := by
      rw [List.any_eq_false]
      rintro m hm
      obtain ⟨t, ht, rfl⟩ := List.mem_map.mp hm
      simpa using hall t ht
    refine ⟨(targets.map (fun r => ((g r, r) : Option Nat × String))).filterMap (fun m => m.1),
      ?_, ?_, rfl⟩
    · rw [getterFor]
      simp only [hany]
      rfl
    · exact filterMap_fst_map_some g targets hall'

/-- Witness for the amended C9 at a concrete two-target exposed entry. -/
theorem moduleMap_accessor_amended_witness :
    ∃ ms, getterFor
        (fun r => if r = "./a" then some 1 else if r = "./b" then some 2 else none)
        ["./a", "./b"] = GetterBody.loadThenAccess ms ∧
      ms.map some = (["./a", "./b"]).map
        (fun r => if r = "./a" then some 1 else if r = "./b" then some 2 else none) ∧
      accessorResult (fun n => JsValue.obj n) ms =
        (ms.map (fun n => JsValue.obj n)).getLast? :=
  (moduleMap_accessor_amended
      (fun r => if r = "./a" then some 1 else if r = "./b" then some 2 else none)
      ["./a", "./b"] (fun n => JsValue.obj n)).2 (by decide)

end WebpackFederation
